import Mathlib

/-!
Shallow embedding of `control.py` (E32HW quadcopter controller) and proofs of
the specification claims about it.

Modelling conventions:
* Python floats are modelled as rationals (ℚ).  Every float operation on the
  paths covered here (min/max clamping, multiplication by the powers of two
  64 and 32, `math.floor`, addition and subtraction, comparison) is exact in
  binary floating point, so ℚ is a faithful idealisation; the deadzone
  division is the one rounding operation and is treated exactly.
* Python ints are ℤ.  Python's `%` with a positive modulus returns a value in
  `[0, modulus)`, exactly Lean's `Int.emod`, so `%` embeds as `%`.
* Python's bitwise `x & (2^k - 1)` equals `x mod 2^k` for every int `x`
  (two's complement low-bit mask, non-negative result), and the truthiness of
  `x & 2^i` is exactly "bit i of x is set"; the helpers `pymask` and `pybit`
  embed those two uses.
* The per-object side tables of `RangedProperty` / `TimedProperty` become
  plain fields plus setter functions; `time.perf_counter()` becomes an
  explicit `now : ℚ` argument.
-/

/-- Python `x & (2^k - 1)` on arbitrary ints: the low `k` bits of the two's
complement representation, i.e. `x mod 2^k` with a non-negative result. -/
def pymask (x : ℤ) (k : ℕ) : ℤ := x % 2 ^ k

/-- Truthiness of Python `x & 2^i` on arbitrary ints: bit `i` of `x` is set,
i.e. the low `i+1` bits of `x` are at least `2^i`. -/
def pybit (x : ℤ) (i : ℕ) : Bool := decide (2 ^ i ≤ x % 2 ^ (i + 1))

/-- Source line 85: `bits_to_byte(*bits)` ORs `1 <<< i` into an
accumulator for every truthy bit. -/
def bits_to_byte (bits : List Bool) : ℕ :=
  bits.enum.foldl (fun value p => if p.2 then value ||| (1 <<< p.1) else value) 0

/-- Setter body of `RangedProperty` (line 57): clamp the incoming value into
`[min_value, max_value]` via `min(max(value, min_value), max_value)`. -/
def ranged_set (min_value max_value value : ℚ) : ℚ :=
  min (max value min_value) max_value

/-- The `(start_time, value)` pair stored by `TimedProperty._set`. -/
structure TimedSlot where
  start_time : ℚ
  value : Bool
deriving DecidableEq

/-- Absent entry of the `TimedProperty` side table: `(0, default_value)`. -/
def timed_init (default_value : Bool) : TimedSlot := ⟨0, default_value⟩

/-- Getter body of `TimedProperty` (line 72): the stored value while
`now - start_time < timeout`, the default afterwards. -/
def timed_get (timeout : ℚ) (default_value : Bool) (now : ℚ) (s : TimedSlot) :
    Bool :=
  if now - s.start_time < timeout then s.value else default_value

/-- Setter body of `TimedProperty` (line 78): record the current time with the value. -/
def timed_set (now : ℚ) (value : Bool) : TimedSlot := ⟨now, value⟩

/-- The mutable state of a `Vehicle` object: one field per class attribute of
`control.py` lines 161-183 (the network socket and previous-packet buffer are
threaded separately through the encoder functions).  Fields suffixed `_raw`
model the underscored attributes `_fly_no_head`, `_fly_back`, `_stop`, `_up`,
and the `_slot` fields model the `TimedProperty` side-table entries. -/
structure Vehicle where
  throttle : ℚ
  throttle_trim : ℚ
  rudder : ℚ
  rudder_trim : ℚ
  aileron : ℚ
  aileron_trim : ℚ
  elevator : ℚ
  elevator_trim : ℚ
  hight : Bool
  fly_no_head_raw : Bool
  speed : Bool
  fly_360_roll_slot : TimedSlot
  engine_start_slot : TimedSlot
  fly_down_slot : TimedSlot
  fly_up_slot : TimedSlot
  fly_back_raw : Bool
  stop_raw : Bool
  middle_speed : Bool
  up_raw : Bool
  control_type : Bool
  product_type : ℤ
  light : Bool
deriving DecidableEq

/-- Class-attribute defaults of `Vehicle` (lines 161-183); the settings file
is absent (`FileNotFoundError` path of `__init__`). -/
def vehicle_init : Vehicle where
  throttle := 0
  throttle_trim := 0
  rudder := 0
  rudder_trim := 0
  aileron := 0
  aileron_trim := 0
  elevator := 0
  elevator_trim := 0
  hight := false
  fly_no_head_raw := false
  speed := false
  fly_360_roll_slot := timed_init false
  engine_start_slot := timed_init false
  fly_down_slot := timed_init false
  fly_up_slot := timed_init false
  fly_back_raw := false
  stop_raw := false
  middle_speed := false
  up_raw := false
  control_type := false
  product_type := 1
  light := true

namespace Vehicle

/-- Setter of the `throttle` ranged property (`RangedProperty(-1, 1, 0)`). -/
def set_throttle (s : Vehicle) (v : ℚ) : Vehicle :=
  { s with throttle := ranged_set (-1) 1 v }

/-- Setter of the `throttle_trim` ranged property. -/
def set_throttle_trim (s : Vehicle) (v : ℚ) : Vehicle :=
  { s with throttle_trim := ranged_set (-1) 1 v }

/-- Setter of the `rudder` ranged property. -/
def set_rudder (s : Vehicle) (v : ℚ) : Vehicle :=
  { s with rudder := ranged_set (-1) 1 v }

/-- Setter of the `rudder_trim` ranged property. -/
def set_rudder_trim (s : Vehicle) (v : ℚ) : Vehicle :=
  { s with rudder_trim := ranged_set (-1) 1 v }

/-- Setter of the `aileron` ranged property. -/
def set_aileron (s : Vehicle) (v : ℚ) : Vehicle :=
  { s with aileron := ranged_set (-1) 1 v }

/-- Setter of the `aileron_trim` ranged property. -/
def set_aileron_trim (s : Vehicle) (v : ℚ) : Vehicle :=
  { s with aileron_trim := ranged_set (-1) 1 v }

/-- Setter of the `elevator` ranged property. -/
def set_elevator (s : Vehicle) (v : ℚ) : Vehicle :=
  { s with elevator := ranged_set (-1) 1 v }

/-- Setter of the `elevator_trim` ranged property. -/
def set_elevator_trim (s : Vehicle) (v : ℚ) : Vehicle :=
  { s with elevator_trim := ranged_set (-1) 1 v }

/-- Setter of the `product_type` ranged property (`RangedProperty(1, 3, 1)`). -/
def set_product_type (s : Vehicle) (v : ℤ) : Vehicle :=
  { s with product_type := min (max v 1) 3 }

/-- Plain attribute assignments (`hight`, `speed`, `middle_speed`,
`control_type`, `light` are ordinary class attributes). -/
def set_hight (s : Vehicle) (v : Bool) : Vehicle := { s with hight := v }

/-- Plain attribute assignment to `speed`. -/
def set_speed (s : Vehicle) (v : Bool) : Vehicle := { s with speed := v }

/-- Plain attribute assignment to `middle_speed`. -/
def set_middle_speed (s : Vehicle) (v : Bool) : Vehicle :=
  { s with middle_speed := v }

/-- Plain attribute assignment to `control_type`. -/
def set_control_type (s : Vehicle) (v : Bool) : Vehicle :=
  { s with control_type := v }

/-- Plain attribute assignment to `light`. -/
def set_light (s : Vehicle) (v : Bool) : Vehicle := { s with light := v }

/-- Getter of the `fly_no_head` property (line 185): returns `_fly_no_head`. -/
def fly_no_head (s : Vehicle) : Bool := s.fly_no_head_raw

/-- Getter of the `fly_back` property (line 194):
`self.fly_no_head and self._fly_back`. -/
def fly_back (s : Vehicle) : Bool := s.fly_no_head && s.fly_back_raw

/-- Setter of the `fly_back` property (line 198): stores into `_fly_back`. -/
def set_fly_back (s : Vehicle) (v : Bool) : Vehicle :=
  { s with fly_back_raw := v }

/-- Setter of the `fly_no_head` property (line 189): first assigns
`self.fly_back = False` (through the `fly_back` setter), then stores the new
value into `_fly_no_head`. -/
def set_fly_no_head (s : Vehicle) (v : Bool) : Vehicle :=
  { s.set_fly_back false with fly_no_head_raw := v }

/-- Getter of the `stop` property (line 202). -/
def stop (s : Vehicle) : Bool := s.stop_raw

/-- Getter of the `up` property (line 212). -/
def up (s : Vehicle) : Bool := s.up_raw

/-- Setter of the `stop` property (line 206): a true value first forces
`_up = False`; then `_stop` is assigned. -/
def set_stop (s : Vehicle) (v : Bool) : Vehicle :=
  { s with up_raw := if v then false else s.up_raw, stop_raw := v }

/-- Setter of the `up` property (line 216): a true value first forces
`_stop = False`; then `_up` is assigned. -/
def set_up (s : Vehicle) (v : Bool) : Vehicle :=
  { s with stop_raw := if v then false else s.stop_raw, up_raw := v }

/-- Reading `fly_360_roll` (`TimedProperty(0.5, False)`) at time `now`. -/
def fly_360_roll (s : Vehicle) (now : ℚ) : Bool :=
  timed_get (1/2) false now s.fly_360_roll_slot

/-- Writing `fly_360_roll` at time `now`. -/
def set_fly_360_roll (s : Vehicle) (now : ℚ) (v : Bool) : Vehicle :=
  { s with fly_360_roll_slot := timed_set now v }

/-- Reading `engine_start` (`TimedProperty(1, False)`) at time `now`. -/
def engine_start (s : Vehicle) (now : ℚ) : Bool :=
  timed_get 1 false now s.engine_start_slot

/-- Writing `engine_start` at time `now`. -/
def set_engine_start (s : Vehicle) (now : ℚ) (v : Bool) : Vehicle :=
  { s with engine_start_slot := timed_set now v }

/-- Reading `fly_down` (`TimedProperty(1, False)`) at time `now`. -/
def fly_down (s : Vehicle) (now : ℚ) : Bool :=
  timed_get 1 false now s.fly_down_slot

/-- Writing `fly_down` at time `now`. -/
def set_fly_down (s : Vehicle) (now : ℚ) (v : Bool) : Vehicle :=
  { s with fly_down_slot := timed_set now v }

/-- Reading `fly_up` (`TimedProperty(1, False)`) at time `now`. -/
def fly_up (s : Vehicle) (now : ℚ) : Bool :=
  timed_get 1 false now s.fly_up_slot

/-- Writing `fly_up` at time `now`. -/
def set_fly_up (s : Vehicle) (now : ℚ) (v : Bool) : Vehicle :=
  { s with fly_up_slot := timed_set now v }

end Vehicle

/-- Axis byte of the command payload (lines 245-248):
`min(math.floor(axis * 64) + 64, 127)`. -/
def axis_byte (q : ℚ) : ℤ := min (⌊q * 64⌋ + 64) 127

/-- Trim byte of the command payload (lines 249-252):
`min(math.floor(trim * 32) + 32, 63)`. -/
def trim_byte (q : ℚ) : ℤ := min (⌊q * 32⌋ + 32) 63

namespace Vehicle

/-- The 13-byte list `cmd` of `Vehicle.update` (lines 242-270) before the
checksum is appended, read at time `now`. -/
def cmd_base (s : Vehicle) (now : ℚ) : List ℤ :=
  [0xff,
   0x02,
   axis_byte s.throttle,
   axis_byte s.rudder,
   axis_byte s.elevator,
   axis_byte s.aileron,
   trim_byte s.throttle_trim,
   trim_byte s.aileron_trim,
   trim_byte s.elevator_trim,
   trim_byte s.rudder_trim,
   (bits_to_byte [s.hight, s.fly_no_head, s.speed, s.fly_360_roll now,
      s.engine_start now, s.fly_down now, s.fly_up now] : ℤ),
   (bits_to_byte [s.fly_back, s.stop, s.middle_speed, s.up, s.control_type,
      pybit s.product_type 0, pybit s.product_type 1] : ℤ),
   (bits_to_byte [s.light] : ℤ)]

/-- The full `cmd` list including the appended checksum
`sum(cmd[1:]) & 0x7f` (line 272). -/
def cmd (s : Vehicle) (now : ℚ) : List ℤ :=
  s.cmd_base now ++ [pymask ((s.cmd_base now).drop 1).sum 7]

/-- The 26-byte `packet` list as first built (lines 273-286): fixed header,
sequence byte `(prev_packet[7] + 1) & 0xff`, destination marker, the zero
placeholder at index 10, and the command payload. -/
def packet_base (prev : List ℤ) (s : Vehicle) (now : ℚ) : List ℤ :=
  [0x5b, 0x52, 0x74, 0x3e, 0x1a, 0x00, 0x01,
   pymask (prev.getD 7 0 + 1) 8,
   0xe0, 0x00,
   0x00,
   0x00] ++ s.cmd now

end Vehicle

/-- The accumulated `diff` of lines 288-290: the sum of `a - b` over
`zip(prev_packet, packet)`. -/
def diff_sum (prev pkt : List ℤ) : ℤ :=
  ((prev.zip pkt).map (fun ab => ab.1 - ab.2)).sum

namespace Vehicle

/-- The packet actually handed to `sendto` (line 291-293): the built packet
with `diff % 0xff` written at index 10. -/
def send_packet (prev : List ℤ) (s : Vehicle) (now : ℚ) : List ℤ :=
  (s.packet_base prev now).set 10 (diff_sum prev (s.packet_base prev now) % 255)

/-- The `_prev_packet` buffer after one `update` call (lines 292-297):
advanced to the just-sent packet when `sendto` did not raise `OSError`
(`send_ok = true`), unchanged otherwise. -/
def update_prev (prev : List ℤ) (s : Vehicle) (now : ℚ) (send_ok : Bool) :
    List ℤ :=
  if send_ok then s.send_packet prev now else prev

end Vehicle

/-- The command list always has 14 bytes. -/
theorem cmd_length (s : Vehicle) (now : ℚ) : (s.cmd now).length = 14 := by
  simp [Vehicle.cmd, Vehicle.cmd_base]

/-- The built packet always has 26 bytes. -/
theorem packet_base_length (prev : List ℤ) (s : Vehicle) (now : ℚ) :
    (s.packet_base prev now).length = 26 := by
  simp [Vehicle.packet_base, Vehicle.cmd, Vehicle.cmd_base]

/-- A zip-difference sum is the positionwise sum over the common length. -/
theorem diff_sum_eq_range (l1 l2 : List ℤ) :
    diff_sum l1 l2 =
      ((List.range (min l1.length l2.length)).map
        (fun i => l1.getD i 0 - l2.getD i 0)).sum := by
  induction l1 generalizing l2 with
  | nil => simp [diff_sum]
  | cons a t1 ih =>
    cases l2 with
    | nil => simp [diff_sum]
    | cons b t2 =>
      have h := ih t2
      simp only [diff_sum, List.zip_cons_cons, List.map_cons, List.sum_cons,
        List.length_cons] at h ⊢
      rw [h]
      have hmin : min (t1.length + 1) (t2.length + 1) = min t1.length t2.length + 1 := by
        omega
      rw [hmin, List.range_succ_eq_map]
      simp only [List.map_cons, List.map_map, List.sum_cons, List.getD_cons_zero]
      refine congrArg (fun x => a - b + x)
        (congrArg List.sum (List.map_congr_left fun i _ => ?_).symm)
      simp [Function.comp, Nat.succ_eq_add_one, List.getD]

/-- C1: the diff byte written at index 10 of the transmitted frame is the sum
over all 26 byte positions of `prev[i] - new[i]`, reduced mod 255 (with a
non-negative result), where `new` is the newly built frame — whose diff
offset still holds the zero placeholder at the moment the sum is taken. -/
theorem diff_byte_mod_255 (prev : List ℤ) (s : Vehicle) (now : ℚ)
    (h : prev.length = 26) :
    (s.send_packet prev now).getD 10 0 =
      ((List.range 26).map
        (fun i => prev.getD i 0 - (s.packet_base prev now).getD i 0)).sum
      % 255 := by
  have hlen : (s.packet_base prev now).length = 26 := packet_base_length prev s now
  have key : ∀ (l : List ℤ) (d : ℤ), l.length = 26 → (l.set 10 d).getD 10 0 = d := by
    intro l d hl
    have h10 : (10 : ℕ) < l.length := by omega
    simp [List.getD, List.getElem?_set_eq_of_lt d h10]
  simp only [Vehicle.send_packet]
  rw [key _ _ hlen, diff_sum_eq_range, h, hlen]
  simp

/-- Closed instance of the diff-byte theorem at the all-zero previous frame
and the initial vehicle state. -/
theorem diff_byte_mod_255_witness :
    (List.replicate 26 (0:ℤ)).length = 26 ∧
    (vehicle_init.send_packet (List.replicate 26 (0:ℤ)) 0).getD 10 0 =
      ((List.range 26).map
        (fun i => (List.replicate 26 (0:ℤ)).getD i 0 -
          (vehicle_init.packet_base (List.replicate 26 (0:ℤ)) 0).getD i 0)).sum
      % 255 :=
  ⟨by simp, diff_byte_mod_255 (List.replicate 26 (0:ℤ)) vehicle_init 0 (by simp)⟩

/-- C2: the sequence byte of the newly built frame is the previous
successfully sent frame's sequence byte (index 7) plus one, mod 256; on a
successful send the previous-frame buffer advances to the just-sent frame,
and on a failed send it is left unchanged. -/
theorem sequence_and_prev_buffer (prev : List ℤ) (s : Vehicle) (now : ℚ) :
    (s.send_packet prev now).getD 7 0 = (prev.getD 7 0 + 1) % 256 ∧
    s.update_prev prev now true = s.send_packet prev now ∧
    s.update_prev prev now false = prev := by
  refine ⟨?_, rfl, rfl⟩
  have h7 : (10 : ℕ) ≠ 7 := by norm_num
  simp only [Vehicle.send_packet, List.getD, List.getElem?_set_ne h7]
  rfl

/-- Method `Joystick._normalize_axis` (lines 542-553), with the deadzone
`self._map['DEADZONE']` as an explicit parameter: clamp into `[-1, 1]`,
return 0 inside the deadzone, otherwise rescale `|v| - d` by `1 - d`, cap at
1, and restore the sign (negating when the clamped value is `≤ 0`). -/
def normalize_axis (deadzone : ℚ) (value : ℚ) : ℚ :=
  let value := min (max value (-1)) 1
  let abs_value := |value|
  if abs_value < deadzone then 0
  else
    let norm_value := (abs_value - deadzone) / (1 - deadzone)
    let norm_value := min 1 norm_value
    if value ≤ 0 then -norm_value else norm_value

/-- The sign function on ℚ used by the spec-side normalization formula. -/
def rat_sign (q : ℚ) : ℚ := if q < 0 then -1 else if q = 0 then 0 else 1

/-- Modelled from the spec wording, for comparison with `normalize_axis`:
given raw `r` (clamped into `[-1,1]`) and deadzone `d`, output 0 when
`|r| < d` and `sign(r) * min(1, (|r| - d) / (1 - d))` otherwise. -/
def normalize_axis_spec (deadzone : ℚ) (r : ℚ) : ℚ :=
  let c := min (max r (-1)) 1
  if |c| < deadzone then 0
  else rat_sign c * min 1 ((|c| - deadzone) / (1 - deadzone))

/-- C6: for every raw value and every deadzone in `[0, 1)`, the code's axis
normalization agrees with the spec formula
`sign(r) * min(1, (|r| - d)/(1 - d))` outside the deadzone (after clamping),
and in particular with deadzone 1/10: raw 1/20 maps to 0, raw -11/20 maps to
-1/2, and raw 1 maps to 1. -/
theorem deadzone_normalization :
    (∀ d r : ℚ, 0 ≤ d → d < 1 → normalize_axis d r = normalize_axis_spec d r) ∧
    normalize_axis (1/10) (1/20) = 0 ∧
    normalize_axis (1/10) (-(11/20)) = -(1/2) ∧
    normalize_axis (1/10) 1 = 1 := by
  refine ⟨?_, by with_unfolding_all rfl, by with_unfolding_all rfl,
    by with_unfolding_all rfl⟩
  intro d r h0 h1
  simp only [normalize_axis, normalize_axis_spec, rat_sign]
  set c := min (max r (-1)) 1 with hc
  by_cases hd : |c| < d
  · simp [hd]
  · simp only [hd, if_false]
    rcases lt_trichotomy c 0 with h | h | h
    · rw [if_pos (le_of_lt h), if_pos h]
      ring
    · have hd0 : d = 0 := by
        have habs : |c| = 0 := by rw [h, abs_zero]
        rw [habs] at hd
        linarith [not_lt.mp hd]
      rw [h, hd0]
      norm_num
    · rw [if_neg (not_le.mpr h), if_neg (asymm h), if_neg (ne_of_gt h)]
      ring

/-- Closed instance of the normalization theorem at deadzone 1/10, raw 1/2. -/
theorem deadzone_normalization_witness :
    (0:ℚ) ≤ 1/10 ∧ (1:ℚ)/10 < 1 ∧
    normalize_axis (1/10) (1/2) = normalize_axis_spec (1/10) (1/2) :=
  ⟨by norm_num, by norm_num,
    deadzone_normalization.1 (1/10) (1/2) (by norm_num) (by norm_num)⟩

/-- C7: a momentary flag set true at time `t` reads true at time `tp`
exactly while `tp - t` is below the timeout and reads the default `false`
once the timeout has elapsed; immediately after setting it reads true; the
four momentary flags of `Vehicle` behave that way with their timeouts 1/2,
1, 1 and 1. -/
theorem momentary_flag_timeout :
    (∀ T t tp : ℚ, timed_get T false tp (timed_set t true) = decide (tp - t < T)) ∧
    (∀ T t tp : ℚ, T ≤ tp - t → timed_get T false tp (timed_set t true) = false) ∧
    (∀ T t : ℚ, 0 < T → timed_get T false t (timed_set t true) = true) ∧
    (∀ (s : Vehicle) (t tp : ℚ),
      (s.set_fly_360_roll t true).fly_360_roll tp = decide (tp - t < 1/2) ∧
      (s.set_engine_start t true).engine_start tp = decide (tp - t < 1) ∧
      (s.set_fly_down t true).fly_down tp = decide (tp - t < 1) ∧
      (s.set_fly_up t true).fly_up tp = decide (tp - t < 1)) := by
  have key : ∀ T t tp : ℚ,
      timed_get T false tp (timed_set t true) = decide (tp - t < T) := by
    intro T t tp
    by_cases h : tp - t < T <;> simp [timed_get, timed_set, h]
  refine ⟨key, ?_, ?_, ?_⟩
  · intro T t tp h
    rw [key]
    simp [not_lt.mpr h]
  · intro T t h
    rw [key]
    simp [h]
  · intro s t tp
    exact ⟨key (1/2) t tp, key 1 t tp, key 1 t tp, key 1 t tp⟩

/-- Closed instance of the momentary-flag theorem at timeout 1, times 0, 2. -/
theorem momentary_flag_timeout_witness :
    ((1:ℚ) ≤ 2 - 0 ∧ timed_get 1 false 2 (timed_set 0 true) = false) ∧
    ((0:ℚ) < 1 ∧ timed_get 1 false 0 (timed_set 0 true) = true) :=
  ⟨⟨by norm_num, momentary_flag_timeout.2.1 1 0 2 (by norm_num)⟩,
   ⟨by norm_num, momentary_flag_timeout.2.2.1 1 0 (by norm_num)⟩⟩

/-- An axis value in `[-1, 1]` encodes to a byte in `[0, 127]`. -/
theorem axis_byte_bounds (q : ℚ) (h1 : -1 ≤ q) (h2 : q ≤ 1) :
    0 ≤ axis_byte q ∧ axis_byte q ≤ 127 := by
  unfold axis_byte
  have hlo : (-64 : ℤ) ≤ ⌊q * 64⌋ := Int.le_floor.2 (by push_cast; nlinarith)
  exact ⟨le_min (by omega) (by norm_num), min_le_right _ _⟩

/-- A trim value in `[-1, 1]` encodes to a byte in `[0, 63]`. -/
theorem trim_byte_bounds (q : ℚ) (h1 : -1 ≤ q) (h2 : q ≤ 1) :
    0 ≤ trim_byte q ∧ trim_byte q ≤ 63 := by
  unfold trim_byte
  have hlo : (-32 : ℤ) ≤ ⌊q * 32⌋ := Int.le_floor.2 (by push_cast; nlinarith)
  exact ⟨le_min (by omega) (by norm_num), min_le_right _ _⟩

/-- A low-bit mask result is always in `[0, 2^k)`. -/
theorem pymask_bounds (x : ℤ) (k : ℕ) : 0 ≤ pymask x k ∧ pymask x k < 2 ^ k := by
  unfold pymask
  have hk : (0 : ℤ) < 2 ^ k := by positivity
  exact ⟨Int.emod_nonneg x (ne_of_gt hk), Int.emod_lt_of_pos x hk⟩

/-- Seven packed bits never exceed 127. -/
theorem bits7_le_127 : ∀ b0 b1 b2 b3 b4 b5 b6 : Bool,
    bits_to_byte [b0, b1, b2, b3, b4, b5, b6] ≤ 127 := by decide

/-- A single packed bit never exceeds 1. -/
theorem bits1_le_1 : ∀ b : Bool, bits_to_byte [b] ≤ 1 := by decide

/-- C8: the command payload ends in a checksum byte equal to the sum of the
12 payload bytes immediately preceding it (indices 1 through 12 of `cmd`),
reduced mod 128. -/
theorem payload_checksum_mod_128 (s : Vehicle) (now : ℚ) :
    (s.cmd now).length = 14 ∧
    (s.cmd now).getD 13 0 =
      ((List.range 12).map (fun i => (s.cmd now).getD (1 + i) 0)).sum % 128 :=
  ⟨cmd_length s now, by with_unfolding_all rfl⟩

/-- The clamp-range invariant of the vehicle's axis and trim fields; every
state reached through the clamping setters satisfies it. -/
def Vehicle.Clamped (s : Vehicle) : Prop :=
  -1 ≤ s.throttle ∧ s.throttle ≤ 1 ∧
  -1 ≤ s.throttle_trim ∧ s.throttle_trim ≤ 1 ∧
  -1 ≤ s.rudder ∧ s.rudder ≤ 1 ∧
  -1 ≤ s.rudder_trim ∧ s.rudder_trim ≤ 1 ∧
  -1 ≤ s.aileron ∧ s.aileron ≤ 1 ∧
  -1 ≤ s.aileron_trim ∧ s.aileron_trim ≤ 1 ∧
  -1 ≤ s.elevator ∧ s.elevator ≤ 1 ∧
  -1 ≤ s.elevator_trim ∧ s.elevator_trim ≤ 1

/-- Bytes of a list are all in `[0, 255]`. -/
def bytes_ok (l : List ℤ) : Prop := List.Forall (fun b => 0 ≤ b ∧ b ≤ 255) l

/-- A positionwise consequence of `bytes_ok`. -/
theorem bytes_ok_getD (l : List ℤ) (h : bytes_ok l) (i : ℕ) (hi : i < l.length) :
    0 ≤ l.getD i 0 ∧ l.getD i 0 ≤ 255 := by
  rw [List.getD_eq_getElem l 0 hi]
  exact List.forall_iff_forall_mem.mp h _ (List.getElem_mem hi)

/-- C10: for a vehicle state with clamped axis/trim values, every one of the
26 bytes of the transmitted frame lies in `[0, 255]` — the axis bytes
(indices 14-17) in `[0, 127]`, the trim bytes (indices 18-21) in `[0, 63]`,
the payload checksum (index 25) in `[0, 127]`, the sequence byte (index 7)
in `[0, 255]` and the diff byte (index 10) in `[0, 254]` — so serializing
the frame to raw bytes cannot fail. -/
theorem frame_bytes_in_range (prev : List ℤ) (s : Vehicle) (now : ℚ)
    (hc : s.Clamped) :
    (s.send_packet prev now).length = 26 ∧
    (∀ i, i < 26 → 0 ≤ (s.send_packet prev now).getD i 0 ∧
      (s.send_packet prev now).getD i 0 ≤ 255) ∧
    (∀ k, 14 ≤ k → k ≤ 17 → 0 ≤ (s.send_packet prev now).getD k 0 ∧
      (s.send_packet prev now).getD k 0 ≤ 127) ∧
    (∀ k, 18 ≤ k → k ≤ 21 → 0 ≤ (s.send_packet prev now).getD k 0 ∧
      (s.send_packet prev now).getD k 0 ≤ 63) ∧
    (0 ≤ (s.send_packet prev now).getD 25 0 ∧
      (s.send_packet prev now).getD 25 0 ≤ 127) ∧
    (0 ≤ (s.send_packet prev now).getD 7 0 ∧
      (s.send_packet prev now).getD 7 0 ≤ 255) ∧
    (0 ≤ (s.send_packet prev now).getD 10 0 ∧
      (s.send_packet prev now).getD 10 0 ≤ 254) := by
  obtain ⟨h1, h2, h3, h4, h5, h6, h7, h8, h9, h10, h11, h12, h13, h14, h15, h16⟩ := hc
  have hth := axis_byte_bounds s.throttle h1 h2
  have hru := axis_byte_bounds s.rudder h5 h6
  have hel := axis_byte_bounds s.elevator h13 h14
  have hai := axis_byte_bounds s.aileron h9 h10
  have htht := trim_byte_bounds s.throttle_trim h3 h4
  have hait := trim_byte_bounds s.aileron_trim h11 h12
  have helt := trim_byte_bounds s.elevator_trim h15 h16
  have hrut := trim_byte_bounds s.rudder_trim h7 h8
  have hb1 : (bits_to_byte [s.hight, s.fly_no_head, s.speed, s.fly_360_roll now,
      s.engine_start now, s.fly_down now, s.fly_up now] : ℤ) ≤ 127 := by
    exact_mod_cast bits7_le_127 _ _ _ _ _ _ _
  have hb2 : (bits_to_byte [s.fly_back, s.stop, s.middle_speed, s.up,
      s.control_type, pybit s.product_type 0, pybit s.product_type 1] : ℤ) ≤ 127 := by
    exact_mod_cast bits7_le_127 _ _ _ _ _ _ _
  have hb3 : (bits_to_byte [s.light] : ℤ) ≤ 1 := by
    exact_mod_cast bits1_le_1 _
  have hb1n : (0:ℤ) ≤ (bits_to_byte [s.hight, s.fly_no_head, s.speed,
      s.fly_360_roll now, s.engine_start now, s.fly_down now, s.fly_up now] : ℤ) :=
    Int.ofNat_nonneg _
  have hb2n : (0:ℤ) ≤ (bits_to_byte [s.fly_back, s.stop, s.middle_speed, s.up,
      s.control_type, pybit s.product_type 0, pybit s.product_type 1] : ℤ) :=
    Int.ofNat_nonneg _
  have hb3n : (0:ℤ) ≤ (bits_to_byte [s.light] : ℤ) := Int.ofNat_nonneg _
  have hchk := pymask_bounds ((s.cmd_base now).drop 1).sum 7
  have hseq := pymask_bounds (prev.getD 7 0 + 1) 8
  have hchk2 : pymask ((s.cmd_base now).drop 1).sum 7 < 128 :=
    lt_of_lt_of_le hchk.2 (by norm_num)
  have hseq2 : pymask (prev.getD 7 0 + 1) 8 < 256 :=
    lt_of_lt_of_le hseq.2 (by norm_num)
  have hdiff : 0 ≤ diff_sum prev (s.packet_base prev now) % 255 ∧
      diff_sum prev (s.packet_base prev now) % 255 < 255 :=
    ⟨Int.emod_nonneg _ (by norm_num), Int.emod_lt_of_pos _ (by norm_num)⟩
  have hok : bytes_ok (s.send_packet prev now) := by
    show bytes_ok
      ([0x5b, 0x52, 0x74, 0x3e, 0x1a, 0x00, 0x01,
        pymask (prev.getD 7 0 + 1) 8, 0xe0, 0x00,
        diff_sum prev (s.packet_base prev now) % 255, 0x00,
        0xff, 0x02,
        axis_byte s.throttle, axis_byte s.rudder, axis_byte s.elevator,
        axis_byte s.aileron,
        trim_byte s.throttle_trim, trim_byte s.aileron_trim,
        trim_byte s.elevator_trim, trim_byte s.rudder_trim,
        (bits_to_byte [s.hight, s.fly_no_head, s.speed, s.fly_360_roll now,
          s.engine_start now, s.fly_down now, s.fly_up now] : ℤ),
        (bits_to_byte [s.fly_back, s.stop, s.middle_speed, s.up, s.control_type,
          pybit s.product_type 0, pybit s.product_type 1] : ℤ),
        (bits_to_byte [s.light] : ℤ),
        pymask ((s.cmd_base now).drop 1).sum 7])
    simp only [bytes_ok, List.forall_cons, List.Forall, and_true]
    refine ⟨by norm_num, by norm_num, by norm_num, by norm_num, by norm_num,
      by norm_num, by norm_num, ⟨hseq.1, by omega⟩, by norm_num, by norm_num,
      ⟨hdiff.1, by omega⟩, by norm_num, by norm_num, by norm_num,
      ⟨hth.1, by omega⟩, ⟨hru.1, by omega⟩, ⟨hel.1, by omega⟩,
      ⟨hai.1, by omega⟩, ⟨htht.1, by omega⟩, ⟨hait.1, by omega⟩,
      ⟨helt.1, by omega⟩, ⟨hrut.1, by omega⟩, ⟨hb1n, by omega⟩,
      ⟨hb2n, by omega⟩, ⟨hb3n, by omega⟩, ⟨hchk.1, by omega⟩⟩
  have hlen : (s.send_packet prev now).length = 26 := by
    simp [Vehicle.send_packet, packet_base_length]
  refine ⟨hlen, ?_, ?_, ?_, ?_, ?_, ?_⟩
  · intro i hi
    exact bytes_ok_getD _ hok i (by rw [hlen]; exact hi)
  · intro k hk1 hk2
    interval_cases k
    · exact ⟨hth.1, hth.2⟩
    · exact ⟨hru.1, hru.2⟩
    · exact ⟨hel.1, hel.2⟩
    · exact ⟨hai.1, hai.2⟩
  · intro k hk1 hk2
    interval_cases k
    · exact ⟨htht.1, htht.2⟩
    · exact ⟨hait.1, hait.2⟩
    · exact ⟨helt.1, helt.2⟩
    · exact ⟨hrut.1, hrut.2⟩
  · exact ⟨hchk.1, by show pymask ((s.cmd_base now).drop 1).sum 7 ≤ 127; omega⟩
  · exact ⟨hseq.1, by show pymask (prev.getD 7 0 + 1) 8 ≤ 255; omega⟩
  · exact ⟨hdiff.1,
      by show diff_sum prev (s.packet_base prev now) % 255 ≤ 254; omega⟩

/-- Closed instance of the byte-range theorem at the initial state. -/
theorem frame_bytes_in_range_witness :
    vehicle_init.Clamped ∧
    (vehicle_init.send_packet (List.replicate 26 0) 0).length = 26 :=
  ⟨by norm_num [Vehicle.Clamped, vehicle_init],
   (frame_bytes_in_range (List.replicate 26 0) vehicle_init 0
      (by norm_num [Vehicle.Clamped, vehicle_init])).1⟩

/-- One entry of the `Vehicle.inputs` descriptor table (lines 95-159). -/
structure InputDesc where
  id : String
  type : String
  desc : String
  trim : Bool := false
  trim_step : ℚ := 0
deriving DecidableEq

/-- The static input-descriptor list `Vehicle.inputs` (lines 95-159). -/
def Vehicle.inputs : List InputDesc :=
  [{ id := "throttle", type := "axis", desc := "Throttle (Down<->Up)" },
   { id := "rudder", type := "axis", desc := "Rudder (Rotate Left<->Right)",
     trim := true, trim_step := 2/64 },
   { id := "aileron", type := "axis", desc := "Aileron (Left<->Right)",
     trim := true, trim_step := 2/64 },
   { id := "elevator", type := "axis", desc := "Elevator (Backward<->Forward)",
     trim := true, trim_step := 2/64 },
   { id := "fly_no_head", type := "toggle", desc := "Headless Mode" },
   { id := "speed", type := "toggle", desc := "Speed" },
   { id := "fly_360_roll", type := "once", desc := "3D Flip" },
   { id := "engine_start", type := "once", desc := "Engine Start" },
   { id := "fly_down", type := "once", desc := "Automatic Landing" },
   { id := "fly_up", type := "once", desc := "Automatic Take-Off" },
   { id := "fly_back", type := "toggle",
     desc := "Return Home (only in headless mode)" },
   { id := "stop", type := "push", desc := "Emergency Stop" },
   { id := "up", type := "push", desc := "Upwards Evasion" },
   { id := "light", type := "toggle", desc := "Light" }]

/-- Method `MappingUi._next_input` (lines 431-439) restricted to the pair
of counters (current, current_sub) it reads and writes: while a trim-capable
axis descriptor has sub-step below 2 the sub-step advances, otherwise the
descriptor index advances and the sub-step resets; past the end nothing
changes. -/
def next_input (l : List InputDesc) (cs : ℕ × ℕ) : ℕ × ℕ :=
  if h : cs.1 < l.length then
    let d := l.get ⟨cs.1, h⟩
    if d.type = "axis" ∧ d.trim = true ∧ cs.2 < 2 then (cs.1, cs.2 + 1)
    else (cs.1 + 1, 0)
  else cs

/-- Number of capture/skip actions a single descriptor consumes: three for a
trim-capable axis (primary, trim-decrease, trim-increase), one otherwise. -/
def steps_for (d : InputDesc) : ℕ :=
  if d.type = "axis" ∧ d.trim = true then 3 else 1

/-- Total number of capture/skip actions for a whole descriptor list. -/
def total_steps (l : List InputDesc) : ℕ := (l.map steps_for).sum

/-- The source kind of a discrete input: the `('btn', i)` / `('hat', i)`
tuples produced by `Joystick.get_state`. -/
inductive BtnKind
  | btn
  | hat
deriving DecidableEq

/-- A discrete source tuple `(kind, index)`. -/
structure BtnSrc where
  kind : BtnKind
  idx : ℕ
deriving DecidableEq

/-- Python tuple ordering on the source tuples: the string 'btn' sorts
before 'hat', ties broken by index. -/
def btn_lt (a b : BtnSrc) : Bool :=
  match a.kind, b.kind with
  | BtnKind.btn, BtnKind.hat => true
  | BtnKind.hat, BtnKind.btn => false
  | _, _ => decide (a.idx < b.idx)

/-- Expression `sorted(buttons_down)[0]` of `MappingUi.update`: the minimum of the
pressed sources under Python tuple order, `none` when nothing is pressed. -/
def first_down (l : List BtnSrc) : Option BtnSrc :=
  match l with
  | [] => none
  | h :: t => some (t.foldl (fun m x => if btn_lt x m then x else m) h)

/-- A value stored in `MappingUi.mapping`: `(axis_index, axis >= 0)` for an
axis slot, a source tuple for a button slot. -/
inductive MapVal
  | axis_val (idx : ℕ) (nonneg : Bool)
  | btn_val (b : BtnSrc)
deriving DecidableEq

/-- Python dict assignment on an association list: replace the value when
the key is present, append otherwise. -/
def dict_insert (m : List (String × MapVal)) (k : String) (v : MapVal) :
    List (String × MapVal) :=
  if m.any (fun p => p.1 == k) then
    m.map (fun p => if p.1 == k then (k, v) else p)
  else m ++ [(k, v)]

/-- The mutable state of `MappingUi` used by its `update` method:
`_current`, `_current_sub`, `mapping` and `_locked_axes`. -/
structure WizState where
  current : ℕ
  current_sub : ℕ
  mapping : List (String × MapVal)
  locked_axes : List ℕ
deriving DecidableEq

/-- Initial `MappingUi` state (lines 416-418). -/
def wiz_init : WizState := ⟨0, 0, [], []⟩

/-- Method `MappingUi.update` (lines 479-504) for one tick, with the joystick
observation (`buttons_down` as a list of source tuples, normalized `axes`)
passed in: when not yet terminal, first unlock every axis whose magnitude
fell below 1/10, then capture — a pressed button for a trim sub-step or a
non-axis descriptor, or the first unlocked axis with magnitude at least
9/10 for an axis primary (locking it) — and advance via `next_input`. -/
def wiz_update (inputs : List InputDesc) (s : WizState)
    (buttons_down : List BtnSrc) (axes : List ℚ) : WizState :=
  if h : s.current < inputs.length then
    let locked := s.locked_axes.filter
      (fun i => !(decide (i < axes.length ∧ |axes.getD i 0| < 1/10)))
    let d := inputs.get ⟨s.current, h⟩
    if d.type = "axis" ∧ 0 < s.current_sub then
      match first_down buttons_down with
      | some b =>
          let sub_name := if s.current_sub = 1 then "dec" else "inc"
          let cs := next_input inputs (s.current, s.current_sub)
          { current := cs.1, current_sub := cs.2,
            mapping := dict_insert s.mapping
              (d.id ++ "_trim_" ++ sub_name ++ "_btn") (MapVal.btn_val b),
            locked_axes := locked }
      | none => { s with locked_axes := locked }
    else if d.type = "axis" then
      match axes.enum.find?
          (fun p => decide (9/10 ≤ |p.2|) && !(locked.contains p.1)) with
      | some p =>
          let cs := next_input inputs (s.current, s.current_sub)
          { current := cs.1, current_sub := cs.2,
            mapping := dict_insert s.mapping (d.id ++ "_axis")
              (MapVal.axis_val p.1 (decide (0 ≤ p.2))),
            locked_axes := locked ++ [p.1] }
      | none => { s with locked_axes := locked }
    else
      match first_down buttons_down with
      | some b =>
          let cs := next_input inputs (s.current, s.current_sub)
          { current := cs.1, current_sub := cs.2,
            mapping := dict_insert s.mapping (d.id ++ "_btn")
              (MapVal.btn_val b),
            locked_axes := locked }
      | none => { s with locked_axes := locked }
  else s

/-- Folding `MappingUi.update` over a sequence of joystick observations. -/
def run_wiz (inputs : List InputDesc) (s : WizState)
    (obs : List (List BtnSrc × List ℚ)) : WizState :=
  obs.foldl (fun st o => wiz_update inputs st o.1 o.2) s

/-- A driving schedule of 20 joystick observations that captures every slot
of the descriptor list: each axis primary deflects a currently unlocked
axis fully (releasing the previously captured one so it unlocks), and each
button slot presses a button. -/
def wiz_schedule : List (List BtnSrc × List ℚ) :=
  [([], [1]),
   ([], [0, 1]),
   ([⟨BtnKind.btn, 0⟩], []),
   ([⟨BtnKind.btn, 1⟩], []),
   ([], [1, 0]),
   ([⟨BtnKind.btn, 2⟩], []),
   ([⟨BtnKind.btn, 3⟩], []),
   ([], [0, 1]),
   ([⟨BtnKind.btn, 4⟩], []),
   ([⟨BtnKind.btn, 5⟩], []),
   ([⟨BtnKind.btn, 6⟩], []),
   ([⟨BtnKind.btn, 7⟩], []),
   ([⟨BtnKind.btn, 8⟩], []),
   ([⟨BtnKind.btn, 9⟩], []),
   ([⟨BtnKind.btn, 10⟩], []),
   ([⟨BtnKind.btn, 11⟩], []),
   ([⟨BtnKind.btn, 12⟩], []),
   ([⟨BtnKind.btn, 13⟩], []),
   ([⟨BtnKind.btn, 14⟩], []),
   ([⟨BtnKind.btn, 15⟩], [])]

/-- Prepending a descriptor shifts the `next_input` dynamics by one index. -/
theorem next_input_shift (d : InputDesc) (l : List InputDesc) (c sub : ℕ) :
    next_input (d :: l) (c + 1, sub) =
      ((next_input l (c, sub)).1 + 1, (next_input l (c, sub)).2) := by
  unfold next_input
  by_cases h : c < l.length
  · have h1 : c + 1 < (d :: l).length := by simp; omega
    rw [dif_pos h1, dif_pos h]
    simp only [List.get_cons_succ]
    split <;> simp
  · have h1 : ¬(c + 1 < (d :: l).length) := by simp; omega
    rw [dif_neg h1, dif_neg h]

/-- Iterated version of the shift property. -/
theorem iterate_next_input_shift (d : InputDesc) (l : List InputDesc)
    (n c sub : ℕ) :
    (next_input (d :: l))^[n] (c + 1, sub) =
      (((next_input l)^[n] (c, sub)).1 + 1, ((next_input l)^[n] (c, sub)).2) := by
  induction n generalizing c sub with
  | zero => simp
  | succ n ih =>
    rw [Function.iterate_succ_apply, Function.iterate_succ_apply,
      next_input_shift]
    exact ih (next_input l (c, sub)).1 (next_input l (c, sub)).2

/-- A non-trim-axis descriptor at the head consumes one action. -/
theorem next_input_head_plain (d : InputDesc) (l : List InputDesc)
    (h : ¬(d.type = "axis" ∧ d.trim = true)) :
    next_input (d :: l) (0, 0) = (1, 0) := by
  unfold next_input
  rw [dif_pos (by simp : 0 < (d :: l).length)]
  have : ¬(d.type = "axis" ∧ d.trim = true ∧ (0:ℕ) < 2) := by tauto
  simp only [List.get]
  rw [if_neg this]

/-- A trim-capable axis descriptor at the head consumes three actions. -/
theorem next_input_head_trim (d : InputDesc) (l : List InputDesc)
    (h : d.type = "axis" ∧ d.trim = true) :
    next_input (d :: l) (0, 0) = (0, 1) ∧
    next_input (d :: l) (0, 1) = (0, 2) ∧
    next_input (d :: l) (0, 2) = (1, 0) := by
  unfold next_input
  have h0 : (0:ℕ) < (d :: l).length := by simp
  refine ⟨?_, ?_, ?_⟩ <;> rw [dif_pos h0] <;> simp only [List.get]
  · rw [if_pos ⟨h.1, h.2, by norm_num⟩]
  · rw [if_pos ⟨h.1, h.2, by norm_num⟩]
  · rw [if_neg (by simp : ¬(d.type = "axis" ∧ d.trim = true ∧ (2:ℕ) < 2))]

/-- The wizard's index/sub-step dynamics first reach the terminal index
exactly after `total_steps` actions. -/
theorem wizard_counts (l : List InputDesc) :
    (next_input l)^[total_steps l] (0, 0) = (l.length, 0) ∧
    ∀ k, k < total_steps l → ((next_input l)^[k] (0, 0)).1 < l.length := by
  induction l with
  | nil =>
    refine ⟨by simp [total_steps], ?_⟩
    intro k hk
    simp [total_steps] at hk
  | cons d t ih =>
    by_cases hd : d.type = "axis" ∧ d.trim = true
    · have h3 : total_steps (d :: t) = total_steps t + 3 := by
        simp [total_steps, steps_for, hd]
        omega
      obtain ⟨hh1, hh2, hh3⟩ := next_input_head_trim d t hd
      have hhead : (next_input (d :: t))^[3] (0, 0) = (1, 0) := by
        show next_input (d :: t)
          (next_input (d :: t) (next_input (d :: t) (0, 0))) = (1, 0)
        rw [hh1, hh2, hh3]
      constructor
      · rw [h3, Function.iterate_add_apply, hhead]
        have hshift := iterate_next_input_shift d t (total_steps t) 0 0
        rw [Nat.zero_add] at hshift
        rw [hshift, ih.1]
        rfl
      · intro k hk
        by_cases hk3 : k < 3
        · interval_cases k
          · show (0 : ℕ) < (d :: t).length
            simp
          · show (next_input (d :: t) (0, 0)).1 < (d :: t).length
            rw [hh1]
            simp
          · show (next_input (d :: t)
              (next_input (d :: t) (0, 0))).1 < (d :: t).length
            rw [hh1, hh2]
            simp
        · obtain ⟨m, rfl⟩ : ∃ m, k = m + 3 := ⟨k - 3, by omega⟩
          rw [Function.iterate_add_apply, hhead]
          have hshift := iterate_next_input_shift d t m 0 0
          rw [Nat.zero_add] at hshift
          rw [hshift]
          have hm : m < total_steps t := by omega
          have hlt := ih.2 m hm
          show ((next_input t)^[m] (0, 0)).1 + 1 < t.length + 1
          omega
    · have h1 : total_steps (d :: t) = total_steps t + 1 := by
        simp [total_steps, steps_for, hd]
        omega
      have hhead : (next_input (d :: t))^[1] (0, 0) = (1, 0) := by
        show next_input (d :: t) (0, 0) = (1, 0)
        exact next_input_head_plain d t hd
      constructor
      · rw [h1, Function.iterate_add_apply, hhead]
        have hshift := iterate_next_input_shift d t (total_steps t) 0 0
        rw [Nat.zero_add] at hshift
        rw [hshift, ih.1]
        rfl
      · intro k hk
        by_cases hk1 : k < 1
        · interval_cases k
          show (0 : ℕ) < (d :: t).length
          simp
        · obtain ⟨m, rfl⟩ : ∃ m, k = m + 1 := ⟨k - 1, by omega⟩
          rw [Function.iterate_add_apply, hhead]
          have hshift := iterate_next_input_shift d t m 0 0
          rw [Nat.zero_add] at hshift
          rw [hshift]
          have hm : m < total_steps t := by omega
          have hlt := ih.2 m hm
          show ((next_input t)^[m] (0, 0)).1 + 1 < t.length + 1
          omega

/-- Identity for `total_steps`: one action per descriptor plus two extra actions
per trim-capable axis. -/
theorem total_steps_eq (l : List InputDesc) :
    total_steps l =
      l.length + 2 * l.countP (fun d => decide (d.type = "axis" ∧ d.trim = true)) := by
  induction l with
  | nil => simp [total_steps]
  | cons d t ih =>
    by_cases hd : d.type = "axis" ∧ d.trim = true <;>
      simp [total_steps, steps_for, hd, List.countP_cons] at ih ⊢ <;>
      omega

/-- C9: over any descriptor list, the wizard's index/sub-step dynamics first
reach the terminal state (index = list length) after exactly
`total_steps = N + 2T` capture/skip actions (N descriptors, T trim-capable
axes); and a fully completed no-skip run of `MappingUi.update` over the
program's own 14-descriptor list (T = 3) ends terminal with exactly
14 + 2*3 = 20 recorded mapping entries. -/
theorem wizard_run_counts :
    (∀ l : List InputDesc,
      (next_input l)^[total_steps l] (0, 0) = (l.length, 0) ∧
      (∀ k, k < total_steps l → ((next_input l)^[k] (0, 0)).1 < l.length) ∧
      total_steps l = l.length +
        2 * l.countP (fun d => decide (d.type = "axis" ∧ d.trim = true))) ∧
    (run_wiz Vehicle.inputs wiz_init wiz_schedule).current =
      Vehicle.inputs.length ∧
    (run_wiz Vehicle.inputs wiz_init wiz_schedule).mapping.length =
      total_steps Vehicle.inputs ∧
    total_steps Vehicle.inputs = 14 + 2 * 3 ∧
    Vehicle.inputs.length = 14 ∧
    Vehicle.inputs.countP (fun d => decide (d.type = "axis" ∧ d.trim = true)) = 3 := by
  refine ⟨fun l => ⟨(wizard_counts l).1, (wizard_counts l).2, total_steps_eq l⟩,
    ?_, ?_, ?_, ?_, ?_⟩
  · with_unfolding_all rfl
  · with_unfolding_all rfl
  · with_unfolding_all rfl
  · with_unfolding_all rfl
  · with_unfolding_all rfl

/-- Closed instance of the wizard-count theorem: on the program's own list
the very first action happens strictly before the terminal state. -/
theorem wizard_run_counts_witness :
    0 < total_steps Vehicle.inputs ∧
    ((next_input Vehicle.inputs)^[0] (0, 0)).1 < Vehicle.inputs.length :=
  ⟨by decide, (wizard_run_counts.1 Vehicle.inputs).2.1 0 (by decide)⟩

/-- The invariant that `stop` and `up` are never observed true together. -/
def stop_up_ok (s : Vehicle) : Prop := ¬(s.stop = true ∧ s.up = true)

/-- C3: every axis/trim setter clamps its argument into `[-1, 1]` and the
subsequent read returns exactly the clamped value; out-of-range input is
silently clamped, never rejected (the setters are total functions). -/
theorem axis_trim_clamp (s : Vehicle) (v : ℚ) :
    (s.set_throttle v).throttle = min (max v (-1)) 1 ∧
    (s.set_throttle_trim v).throttle_trim = min (max v (-1)) 1 ∧
    (s.set_rudder v).rudder = min (max v (-1)) 1 ∧
    (s.set_rudder_trim v).rudder_trim = min (max v (-1)) 1 ∧
    (s.set_aileron v).aileron = min (max v (-1)) 1 ∧
    (s.set_aileron_trim v).aileron_trim = min (max v (-1)) 1 ∧
    (s.set_elevator v).elevator = min (max v (-1)) 1 ∧
    (s.set_elevator_trim v).elevator_trim = min (max v (-1)) 1 := by
  refine ⟨rfl, rfl, rfl, rfl, rfl, rfl, rfl, rfl⟩

/-- C5: `fly_back` reads false whenever `fly_no_head` is false, regardless of
the stored `_fly_back` value, and every assignment to `fly_no_head` forces
the underlying `_fly_back` flag off. -/
theorem fly_back_headless_dependency :
    (∀ s : Vehicle, s.fly_no_head = false → s.fly_back = false) ∧
    (∀ (s : Vehicle) (v : Bool), (s.set_fly_no_head v).fly_back_raw = false) := by
  constructor
  · intro s h
    simp [Vehicle.fly_back, h]
  · intro s v
    rfl

/-- Closed instance of the fly_back dependency at the initial state. -/
theorem fly_back_headless_dependency_witness :
    vehicle_init.fly_no_head = false ∧ vehicle_init.fly_back = false :=
  ⟨rfl, fly_back_headless_dependency.1 vehicle_init rfl⟩

/-- C4: `stop` and `up` are mutually exclusive: the invariant holds in the
initial state, setting `stop` true forces `up` false and vice versa, and
every setter of the class preserves the invariant. -/
theorem stop_up_mutual_exclusion :
    stop_up_ok vehicle_init ∧
    (∀ (s : Vehicle) (v : Bool),
      (s.set_stop true).up = false ∧ (s.set_up true).stop = false ∧
      (stop_up_ok s → stop_up_ok (s.set_stop v)) ∧
      (stop_up_ok s → stop_up_ok (s.set_up v))) ∧
    (∀ (s : Vehicle) (q : ℚ) (z : ℤ) (b : Bool) (t : ℚ),
      stop_up_ok s →
      stop_up_ok (s.set_throttle q) ∧ stop_up_ok (s.set_throttle_trim q) ∧
      stop_up_ok (s.set_rudder q) ∧ stop_up_ok (s.set_rudder_trim q) ∧
      stop_up_ok (s.set_aileron q) ∧ stop_up_ok (s.set_aileron_trim q) ∧
      stop_up_ok (s.set_elevator q) ∧ stop_up_ok (s.set_elevator_trim q) ∧
      stop_up_ok (s.set_product_type z) ∧ stop_up_ok (s.set_hight b) ∧
      stop_up_ok (s.set_speed b) ∧ stop_up_ok (s.set_middle_speed b) ∧
      stop_up_ok (s.set_control_type b) ∧ stop_up_ok (s.set_light b) ∧
      stop_up_ok (s.set_fly_no_head b) ∧ stop_up_ok (s.set_fly_back b) ∧
      stop_up_ok (s.set_fly_360_roll t b) ∧ stop_up_ok (s.set_engine_start t b) ∧
      stop_up_ok (s.set_fly_down t b) ∧ stop_up_ok (s.set_fly_up t b)) := by
  refine ⟨?_, ?_, ?_⟩
  · intro h
    simp [vehicle_init, Vehicle.stop, Vehicle.up] at h
  · intro s v
    refine ⟨rfl, rfl, ?_, ?_⟩
    · intro _ h
      rcases h with ⟨h1, h2⟩
      cases v <;> simp [Vehicle.set_stop, Vehicle.stop, Vehicle.up] at h1 h2
    · intro _ h
      rcases h with ⟨h1, h2⟩
      cases v <;> simp [Vehicle.set_up, Vehicle.stop, Vehicle.up] at h1 h2
  · intro s q z b t hs
    refine ⟨hs, hs, hs, hs, hs, hs, hs, hs, hs, hs, hs, hs, hs, hs, ?_, hs, hs,
      hs, hs, hs⟩
    exact hs

/-- Closed instance of the mutual-exclusion theorem at a concrete state. -/
theorem stop_up_mutual_exclusion_witness :
    stop_up_ok vehicle_init ∧ stop_up_ok (vehicle_init.set_throttle (1/2)) := by
  refine ⟨stop_up_mutual_exclusion.1, ?_⟩
  exact ((stop_up_mutual_exclusion.2.2 vehicle_init (1/2) 0 false 0)
    stop_up_mutual_exclusion.1).1
